import Mathlib

/-!
Shallow embedding of the active-grants lifecycle reconstruction and
time-bucketed aggregation pipeline of the NSF-Exploratory-Vis repository
(src/analysis_functions.py and src/streamlit_v2.py), together with proofs
about the claims of its specification.

Dates are modelled as proleptic-Gregorian ordinal day numbers (the number
of days since 0000-12-31, as in Python `date.toordinal`), so that
"expiration_date + 1 day" is `+ 1` and calendar dates named in the claims
are concrete numerals computed by `toDay`.  Missing values (pandas NaT /
NaN) are modelled with `Option`; every comparison against a missing value
is `false`, matching pandas comparison semantics.  Floating-point
percentages are modelled exactly in `ℚ`, with Python `round(x, 2)`
modelled as round-half-to-even on the exact rational.
-/

set_option maxRecDepth 20000

namespace NSF

/-- Gregorian leap-year test. -/
def isLeap (y : Nat) : Bool :=
  (y % 4 == 0 && y % 100 != 0) || (y % 400 == 0)

/-- Number of days in month `m` (1-based) of year `y`. -/
def daysInMonth (y m : Nat) : Nat :=
  if m = 2 then (if isLeap y then 29 else 28)
  else if m = 4 ∨ m = 6 ∨ m = 9 ∨ m = 11 then 30
  else 31

/-- Days in year `y` strictly before month `m` (1-based). -/
def daysBeforeMonth (y m : Nat) : Nat :=
  (List.range (m - 1)).foldl (fun a i => a + daysInMonth y (i + 1)) 0

/-- Days strictly before January 1 of year `y`, counted from the proleptic
Gregorian epoch. -/
def daysBeforeYear (y : Nat) : Nat :=
  365 * (y - 1) + (y - 1) / 4 + (y - 1) / 400 - (y - 1) / 100

/-- Ordinal day number of the calendar date `y-m-d`. -/
def toDay (y m d : Nat) : Nat :=
  daysBeforeYear y + daysBeforeMonth y m + d

/-- First day of year `y` (`pd.Timestamp(f'{year}-01-01')`). -/
def yearStart (y : Nat) : Nat := toDay y 1 1

/-- Last day of year `y` (`pd.Timestamp(f'{year}-12-31')`). -/
def yearEnd (y : Nat) : Nat := toDay y 12 31

/-- One grant record, restricted to the columns the lifecycle pipeline
reads: `awd_eff_date`, `awd_exp_date`, `inst_state_code`,
`inst_state_name`, `terminated`.  `none` models a missing value
(pandas NaT / NaN). -/
structure Grant where
  eff : Option Nat
  exp : Option Nat
  stateCode : Option String
  stateName : Option String
  terminated : Bool
deriving DecidableEq, Repr

/-- Comparison `date ≤ bound` with pandas NaT semantics: any comparison
against a missing date is `false`. -/
def dle : Option Nat → Nat → Bool
  | some a, b => a ≤ b
  | none, _ => false

/-- Comparison `date ≥ bound` with pandas NaT semantics. -/
def dge : Option Nat → Nat → Bool
  | some a, b => b ≤ a
  | none, _ => false

/-- The STATE_FIPS lookup table of src/analysis_functions.py (also duplicated
in src/streamlit.py and src/streamlit_v2.py): state postal code to FIPS id.
Territories such as GU, VI, AS have no entry. -/
def STATE_FIPS : List (String × Int) :=
  [("AL", 1), ("AK", 2), ("AZ", 4), ("AR", 5), ("CA", 6), ("CO", 8),
   ("CT", 9), ("DE", 10), ("FL", 12), ("GA", 13), ("HI", 15), ("ID", 16),
   ("IL", 17), ("IN", 18), ("IA", 19), ("KS", 20), ("KY", 21), ("LA", 22),
   ("ME", 23), ("MD", 24), ("MA", 25), ("MI", 26), ("MN", 27), ("MS", 28),
   ("MO", 29), ("MT", 30), ("NE", 31), ("NV", 32), ("NH", 33), ("NJ", 34),
   ("NM", 35), ("NY", 36), ("NC", 37), ("ND", 38), ("OH", 39), ("OK", 40),
   ("OR", 41), ("PA", 42), ("RI", 44), ("SC", 45), ("SD", 46), ("TN", 47),
   ("TX", 48), ("UT", 49), ("VT", 50), ("VA", 51), ("WA", 53), ("WV", 54),
   ("WI", 55), ("WY", 56), ("DC", 11), ("PR", 72)]

/-- Series.map(STATE_FIPS) on the state column: a missing code maps to NaN,
a code absent from the dictionary maps to NaN. -/
def fipsOf : Option String → Option Int
  | some v => (STATE_FIPS.find? (fun p => p.1 == v)).map (·.2)
  | none => none

/-- Distinct values of the `inst_state_code` column in first-occurrence
order, one entry for missing values, as `Series.unique()` returns them. -/
def uniqueAux (seen : List (Option String)) : List (Option String) → List (Option String)
  | [] => []
  | x :: xs => if x ∈ seen then uniqueAux seen xs else x :: uniqueAux (x :: seen) xs

/-- Distinct state codes of the input, in first-occurrence order. -/
def uniqueStates (rs : List Grant) : List (Option String) :=
  uniqueAux [] (rs.map (·.stateCode))

/-- Rows of `df[df['inst_state_code'] == state]`.  Selecting with a missing
key yields nothing, because `NaN == NaN` is false in pandas. -/
def grantsOfState (rs : List Grant) : Option String → List Grant
  | some v => rs.filter fun g => g.stateCode == some v
  | none => []

/-- The per-year activity mask of the yearly snapshot paths:
`(awd_eff_date <= year_end) & (awd_exp_date >= year_start)`. -/
def activeInYear (g : Grant) (y : Nat) : Bool :=
  dle g.eff (yearEnd y) && dge g.exp (yearStart y)

/-- `active_mask.sum()` for one state group and one year. -/
def numActive (sdf : List Grant) (y : Nat) : Nat :=
  sdf.countP (fun g => activeInYear g y)

/-- Terminated count in src/analysis_functions.py
(`state_df['terminated'].sum() if year == 2025 else 0`): counts every
terminated grant of the group, not only the active ones. -/
def terminatedCount (sdf : List Grant) (y : Nat) : Nat :=
  if y = 2025 then sdf.countP (·.terminated) else 0

/-- Terminated count in src/streamlit_v2.py
(`state_df[active_mask]['terminated'].sum() if year == 2025 else 0`). -/
def terminatedCountV2 (sdf : List Grant) (y : Nat) : Nat :=
  if y = 2025 then (sdf.filter (fun g => activeInYear g y)).countP (·.terminated) else 0

/-- The guarded percentage of the snapshot paths:
`(terminated_count / num_active * 100) if num_active > 0 else 0`. -/
def pctRaw (t a : Nat) : ℚ :=
  if 0 < a then (t : ℚ) / (a : ℚ) * 100 else 0

/-- Round-half-to-even to an integer, the rounding used by Python `round`
(modelled on the exact rational value). -/
def rhalfEven (x : ℚ) : ℤ :=
  let f := ⌊x⌋
  if x - f < 1 / 2 then f
  else if (1 : ℚ) / 2 < x - f then f + 1
  else if f % 2 = 0 then f else f + 1

/-- Python `round(x, 2)` on the exact rational value. -/
def round2 (x : ℚ) : ℚ :=
  (rhalfEven (100 * x) : ℚ) / 100

/-- One row appended to `results` by the yearly snapshot loops. -/
structure YearRow where
  state : Option String
  state_name : Option String
  year : Nat
  num_grants : Nat
  terminated_grants : Nat
  terminated_pct : ℚ
deriving DecidableEq, Repr

/-- The display name of a state group:
`state_df['inst_state_name'].iloc[0] if len(state_df) > 0 else state`. -/
def stateNameOf (sdf : List Grant) (s : Option String) : Option String :=
  match sdf with
  | g :: _ => g.stateName
  | [] => s

/-- One row appended to `results` by prepare_grants_by_state_data for state
code `s` and year `y`. -/
def mkYearRow (rs : List Grant) (s : Option String) (y : Nat) : YearRow :=
  let sdf := grantsOfState rs s
  { state := s
    state_name := stateNameOf sdf s
    year := y
    num_grants := numActive sdf y
    terminated_grants := terminatedCount sdf y
    terminated_pct := round2 (pctRaw (terminatedCount sdf y) (numActive sdf y)) }

/-- The `results` list of prepare_grants_by_state_data
(src/analysis_functions.py lines 170-193): for each distinct state code and
each year 2020..2025 one row with the overlap-test active count, the
2025-only terminated count and the guarded, 2-decimal-rounded percentage. -/
def yearRows (rs : List Grant) : List YearRow :=
  (uniqueStates rs).flatMap fun s =>
    (List.range' 2020 6).map fun y => mkYearRow rs s y

/-- One row appended to `results` by prepare_grants_by_state_year. -/
def mkYearRowV2 (rs : List Grant) (s : Option String) (y : Nat) : YearRow :=
  let sdf := grantsOfState rs s
  { state := s
    state_name := stateNameOf sdf s
    year := y
    num_grants := numActive sdf y
    terminated_grants := terminatedCountV2 sdf y
    terminated_pct := round2 (pctRaw (terminatedCountV2 sdf y) (numActive sdf y)) }

/-- Identical loop of prepare_grants_by_state_year (src/streamlit_v2.py
lines 210-230); it differs from `yearRows` only in counting terminations
among the active grants of the year. -/
def yearRowsV2 (rs : List Grant) : List YearRow :=
  (uniqueStates rs).flatMap fun s =>
    (List.range' 2020 6).map fun y => mkYearRowV2 rs s y

/-- A snapshot row after the FIPS id has been attached. -/
structure YearRowId extends YearRow where
  id : Int
deriving DecidableEq, Repr

/-- The tail of both snapshot functions: build the DataFrame from `results`,
map the state codes through STATE_FIPS and drop rows whose id is NaN.
On empty input `results` is empty, so `pd.DataFrame(results)` has no
columns at all and the column access `grants_df['state']` raises a
KeyError; this is modelled with `Except.error`. -/
def attachFips (results : List YearRow) : Except String (List YearRowId) :=
  if results.isEmpty then .error "KeyError: state"
  else .ok (results.filterMap fun r => (fipsOf r.state).map fun i => { toYearRow := r, id := i })

/-- prepare_grants_by_state_data of src/analysis_functions.py. -/
def prepare_grants_by_state_data (rs : List Grant) : Except String (List YearRowId) :=
  attachFips (yearRows rs)

/-- The long-format `grants_df` produced by prepare_grants_by_state_year of
src/streamlit_v2.py (the wide pivot built from it feeds only the chart
lookup and is not modelled). -/
def prepare_grants_by_state_year (rs : List Grant) : Except String (List YearRowId) :=
  attachFips (yearRowsV2 rs)

/-- The window-clip date: end of the observed window, 2025-12-31. -/
def clipDate : Nat := toDay 2025 12 31

/-- The expiration capping of streamlit_v2.load_data (lines 192-195): a
terminated grant whose expiration exceeds 2025-12-31 gets expiration
2025-12-31.  A missing expiration compares false and is untouched. -/
def capGrant (g : Grant) : Grant :=
  if g.terminated && (match g.exp with
      | some e => decide (clipDate < e)
      | none => false)
  then { g with exp := some clipDate } else g

/-- streamlit_v2.load_data after CSV parsing: cap terminated grants, then
drop rows missing either date or the state name. -/
def load_data_v2 (rs : List Grant) : List Grant :=
  (rs.map capGrant).filter fun g => g.eff.isSome && g.exp.isSome && g.stateName.isSome

/-- The activity test of streamlit_v2.prepare_lifecycle_data at a single
date: `(awd_eff_date <= date) & (awd_exp_date >= date)`. -/
def activeOnDate (g : Grant) (d : Nat) : Bool :=
  dle g.eff d && dge g.exp d

/-- The 72 sampling dates of
`pd.date_range('2020-01-01', '2025-12-31', freq='MS')`: the first day of
every month from January 2020 to December 2025. -/
def monthStarts : List Nat :=
  (List.range 72).map fun i => toDay (2020 + i / 12) (i % 12 + 1) 1

/-- One row of the monthly time-series table of streamlit_v2. -/
structure TSRowV2 where
  date : Nat
  state : Option String
  state_code : String
  count : Nat
deriving DecidableEq, Repr

/-- Lexicographic comparison of character lists by code point. -/
def charsLe : List Char → List Char → Bool
  | [], _ => true
  | _ :: _, [] => false
  | c :: cs, d :: ds =>
    if c.toNat < d.toNat then true
    else if d.toNat < c.toNat then false
    else charsLe cs ds

/-- Lexicographic string order by code point: the order in which pandas
sorts group keys. -/
def strLe (a b : String) : Bool := charsLe a.data b.data

/-- Keys of `df.groupby('inst_state_code')`: the distinct non-missing state
codes, sorted (groupby drops NaN keys and sorts). -/
def sortedCodes (rs : List Grant) : List String :=
  ((rs.filterMap (·.stateCode)).dedup).insertionSort (fun a b => strLe a b = true)

/-- First non-missing `inst_state_name` in a state-code group, as
`groupby('inst_state_code')['inst_state_name'].first()` returns it. -/
def firstNameOf (rs : List Grant) (c : String) : Option String :=
  (rs.filterMap fun g => if g.stateCode == some c then g.stateName else none).head?

/-- prepare_lifecycle_data of src/streamlit_v2.py (lines 280-303): for each
state-code group and each month-start date, count the grants active on that
date by the direct overlap test.  No trimming of leading zero rows is
performed. -/
def prepare_lifecycle_data (rs : List Grant) : List TSRowV2 :=
  (sortedCodes rs).flatMap fun c =>
    monthStarts.map fun d =>
      { date := d
        state := firstNameOf rs c
        state_code := c
        count := (rs.filter (fun g => g.stateCode == some c)).countP (fun g => activeOnDate g d) }

/-- The record filter of prepare_lifecycle_data_with_statecode
(src/analysis_functions.py lines 469-470): drop rows missing either date,
the state name or the state code, then keep `awd_eff_date <= awd_exp_date`. -/
def usable (g : Grant) : Bool :=
  match g.eff, g.exp with
  | some e, some x => g.stateName.isSome && g.stateCode.isSome && decide (e ≤ x)
  | _, _ => false

/-- The `clean_df` of prepare_lifecycle_data_with_statecode. -/
def cleanRecs (rs : List Grant) : List Grant :=
  rs.filter usable

/-- Effective date of a record of `cleanRecs` (always present there). -/
def effD (g : Grant) : Nat := g.eff.getD 0

/-- Expiration date of a record of `cleanRecs` (always present there). -/
def expD (g : Grant) : Nat := g.exp.getD 0

/-- State name of a record of `cleanRecs` (always present there). -/
def nameD (g : Grant) : String := g.stateName.getD ""

/-- One signed event of the Active-Interval Index. -/
structure Event where
  date : Nat
  name : String
  change : Int
deriving DecidableEq, Repr

/-- The `starts` events: one `(awd_eff_date, inst_state_name, +1)` per clean
record (line 473-474). -/
def startEventsOf (L : List Grant) : List Event :=
  L.map fun g => ⟨effD g, nameD g, 1⟩

/-- The `ends` events: one `(awd_exp_date + 1 day, inst_state_name, -1)` per
clean record (lines 476-479). -/
def endEventsOf (L : List Grant) : List Event :=
  L.map fun g => ⟨expD g + 1, nameD g, -1⟩

/-- `all_events = pd.concat([starts, ends])` (line 482). -/
def allEventsOf (L : List Grant) : List Event :=
  startEventsOf L ++ endEventsOf L

/-- Sum of the `change` column of a list of events. -/
def eventsSum (es : List Event) : Int :=
  (es.map (·.change)).sum

/-- The collapsed delta of
`all_events.groupby(['date', 'inst_state_name'])['change'].sum()` for one
group and one date (line 483). -/
def netDelta (L : List Grant) (s : String) (d : Nat) : Int :=
  eventsSum ((allEventsOf L).filter fun e => e.name == s && e.date == d)

/-- The dates of all events. -/
def eventDatesOf (L : List Grant) : List Nat :=
  (allEventsOf L).map (·.date)

/-- The daily index produced by `resample('D').sum()` (line 487): every day
from the earliest to the latest event date. -/
def gridDates (L : List Grant) : List Nat :=
  match eventDatesOf L with
  | [] => []
  | d :: ds =>
    let lo := ds.foldl Nat.min d
    let hi := ds.foldl Nat.max d
    List.range' lo (hi + 1 - lo)

/-- The running cumulative sum (`cumsum`, line 488) of the daily collapsed
deltas of one group, evaluated at date `d`: the sum of `netDelta` over every
grid day up to and including `d`. -/
def gridCum (L : List Grant) (s : String) (d : Nat) : Int :=
  (((gridDates L).filter (· ≤ d)).map (netDelta L s)).sum

/-- The state columns of the unstacked event table, sorted as `unstack`
sorts group keys. -/
def lifeStates (L : List Grant) : List String :=
  ((L.map nameD).dedup).insertionSort (fun a b => strLe a b = true)

/-- Start of the emitted range: `pd.Timestamp('2020-01-01')` (line 494). -/
def lifeStart : Nat := toDay 2020 1 1

/-- End of the emitted range: `pd.Timestamp('2026-01-01')` (line 495). -/
def lifeEnd : Nat := toDay 2026 1 1

/-- The row dates surviving the `.loc[start_date:end_date]` slice (line
496): the grid days clipped to 2020-01-01 .. 2026-01-01. -/
def outDates (L : List Grant) : List Nat :=
  match eventDatesOf L with
  | [] => []
  | d :: ds =>
    let lo := Nat.max (ds.foldl Nat.min d) lifeStart
    let hi := Nat.min (ds.foldl Nat.max d) lifeEnd
    List.range' lo (hi + 1 - lo)

/-- The `Allstates` column (line 491): the per-date sum across the state
columns. -/
def totalCum (L : List Grant) (d : Nat) : Int :=
  ((lifeStates L).map fun s => gridCum L s d).sum

/-- One long-format row of the melted lifecycle table. -/
structure TSRow where
  date : Nat
  state : String
  count : Int
deriving DecidableEq, Repr

/-- prepare_lifecycle_data_with_statecode of src/analysis_functions.py
(lines 463-524): clean the records, build signed events, collapse them per
(date, group), cumulate per group over the daily grid, add the Allstates
total, slice to 2020-01-01 .. 2026-01-01 and melt to long format (melt is
variable-major: one block of rows per state column, sorted, then the
Allstates block).  The trailing merge that re-attaches `inst_state_code`
and the column renames leave the (date, state, count) content unchanged and
are not modelled.  A real state literally named "Allstates" would be
overwritten by the total column; the conditional below mirrors that. -/
def prepare_lifecycle_data_with_statecode (rs : List Grant) : List TSRow :=
  let L := cleanRecs rs
  (lifeStates L ++ ["Allstates"]).flatMap fun s =>
    (outDates L).map fun d =>
      { date := d
        state := s
        count := if s == "Allstates" then totalCum L d else gridCum L s d }

/-! ### Counting helpers -/

/-- Count of clean records of group `s` whose active window contains `d`. -/
def countActive (L : List Grant) (s : String) (d : Nat) : Nat :=
  L.countP fun g => nameD g == s && (decide (effD g ≤ d) && decide (d ≤ expD g))

/-- Sum of the changes of all events of group `s` dated at most `d`. -/
def eventSumUpTo (L : List Grant) (s : String) (d : Nat) : Int :=
  eventsSum ((allEventsOf L).filter fun e => e.name == s && decide (e.date ≤ d))

theorem countP_or_disjoint {α : Type} (p q : α → Bool) (l : List α)
    (h : ∀ a ∈ l, ¬(p a = true ∧ q a = true)) :
    l.countP (fun a => p a || q a) = l.countP p + l.countP q := by
  induction l with
  | nil => simp
  | cons a l ih =>
    have ha := h a (List.mem_cons_self a l)
    have ih2 := ih (fun x hx => h x (List.mem_cons_of_mem a hx))
    simp only [List.countP_cons, ih2]
    cases hp : p a <;> cases hq : q a <;> simp_all <;> omega

theorem eventsSum_append (a b : List Event) :
    eventsSum (a ++ b) = eventsSum a + eventsSum b := by
  simp [eventsSum]

theorem startSum (L : List Grant) (s : String) (d : Nat) :
    eventsSum ((startEventsOf L).filter fun e => e.name == s && decide (e.date ≤ d))
      = (L.countP fun g => nameD g == s && decide (effD g ≤ d) : Int) := by
  induction L with
  | nil => simp [startEventsOf, eventsSum]
  | cons g L ih =>
    simp only [startEventsOf, List.map_cons, List.filter_cons, List.countP_cons] at *
    by_cases hc : ((nameD g == s) && decide (effD g ≤ d)) = true
    · simp only [if_pos hc, eventsSum, List.map_cons, List.sum_cons] at *
      omega
    · simp only [if_neg hc, eventsSum] at *
      rw [ih]
      omega

theorem endSum (L : List Grant) (s : String) (d : Nat) :
    eventsSum ((endEventsOf L).filter fun e => e.name == s && decide (e.date ≤ d))
      = -(L.countP fun g => nameD g == s && decide (expD g + 1 ≤ d) : Int) := by
  induction L with
  | nil => simp [endEventsOf, eventsSum]
  | cons g L ih =>
    simp only [endEventsOf, List.map_cons, List.filter_cons, List.countP_cons] at *
    by_cases hc : ((nameD g == s) && decide (expD g + 1 ≤ d)) = true
    · simp only [if_pos hc, eventsSum, List.map_cons, List.sum_cons] at *
      omega
    · simp only [if_neg hc, eventsSum] at *
      rw [ih]
      omega

theorem count_start_sub_end (L : List Grant) (hL : ∀ g ∈ L, effD g ≤ expD g)
    (s : String) (d : Nat) :
    (L.countP fun g => nameD g == s && decide (effD g ≤ d) : Int)
      - (L.countP fun g => nameD g == s && decide (expD g + 1 ≤ d) : Int)
      = (countActive L s d : Int) := by
  induction L with
  | nil => simp [countActive]
  | cons g L ih =>
    have hg := hL g (List.mem_cons_self g L)
    have ih2 := ih (fun x hx => hL x (List.mem_cons_of_mem g hx))
    simp only [countActive, List.countP_cons] at *
    cases hn : (nameD g == s)
    · simp only [hn, Bool.false_and, Bool.false_eq_true, if_false]
      omega
    · simp only [hn, Bool.true_and]
      by_cases h1 : effD g ≤ d <;> by_cases h2 : expD g + 1 ≤ d <;>
        by_cases h3 : d ≤ expD g <;>
        simp only [h1, h2, h3, decide_True, decide_False, Bool.true_and, Bool.and_true,
          Bool.and_false, Bool.false_eq_true, if_true, if_false] <;>
        omega

theorem eventSumUpTo_eq_countActive (L : List Grant) (hL : ∀ g ∈ L, effD g ≤ expD g)
    (s : String) (d : Nat) :
    eventSumUpTo L s d = (countActive L s d : Int) := by
  have h := count_start_sub_end L hL s d
  rw [eventSumUpTo, allEventsOf, List.filter_append, eventsSum_append, startSum, endSum]
  omega

theorem sum_indicator (D : List Nat) (hD : D.Nodup) (c : Int) (t : Nat) :
    (D.map fun x => if t = x then c else 0).sum = if t ∈ D then c else 0 := by
  induction D with
  | nil => simp
  | cons a D ih =>
    rw [List.nodup_cons] at hD
    rw [List.map_cons, List.sum_cons, ih hD.2]
    by_cases h : t = a
    · subst h
      simp [hD.1]
    · simp [h, List.mem_cons]

theorem sum_netDelta_filter (D : List Nat) (hD : D.Nodup) (E : List Event) (s : String)
    (d : Nat) (hcover : ∀ e ∈ E, e.name = s → e.date ≤ d → e.date ∈ D) :
    ((D.filter (fun x => x ≤ d)).map
        (fun x => eventsSum (E.filter fun e => e.name == s && e.date == x))).sum
      = eventsSum (E.filter fun e => e.name == s && decide (e.date ≤ d)) := by
  induction E with
  | nil =>
    simp only [List.filter_nil, eventsSum, List.map_nil, List.sum_nil]
    refine List.sum_eq_zero ?_
    intro x hx
    rcases List.mem_map.mp hx with ⟨y, _, rfl⟩
    rfl
  | cons e E ih =>
    have ih2 := ih (fun x hx hn hd2 => hcover x (List.mem_cons_of_mem e hx) hn hd2)
    have hsplit : ∀ x : Nat,
        eventsSum ((e :: E).filter fun e2 => e2.name == s && e2.date == x)
          = (if (e.name == s && e.date == x) = true then e.change else 0)
            + eventsSum (E.filter fun e2 => e2.name == s && e2.date == x) := by
      intro x
      rw [List.filter_cons]
      by_cases h : (e.name == s && e.date == x) = true
      · simp [h, eventsSum]
      · simp [h]
    rw [List.map_congr_left fun x _ => hsplit x, List.sum_map_add, ih2]
    rw [List.filter_cons]
    by_cases hname : e.name = s
    · have hind : ∀ x ∈ D.filter (fun x => x ≤ d),
          (if (e.name == s && e.date == x) = true then e.change else 0)
            = if e.date = x then e.change else 0 := by
        intro x _
        simp [hname]
      rw [List.map_congr_left hind, sum_indicator _ (hD.filter _) e.change e.date]
      by_cases hdate : e.date ≤ d
      · have hmem : e.date ∈ D.filter (fun x => x ≤ d) :=
          List.mem_filter.mpr ⟨hcover e (List.mem_cons_self e E) hname hdate, by simpa⟩
        have hcond : (e.name == s && decide (e.date ≤ d)) = true := by simp [hname, hdate]
        rw [if_pos hmem, if_pos hcond]
        simp [eventsSum]
      · have hnmem : e.date ∉ D.filter (fun x => x ≤ d) := by
          intro hmem
          exact hdate (by simpa using (List.mem_filter.mp hmem).2)
        have hcond : ¬(e.name == s && decide (e.date ≤ d)) = true := by simp [hname, hdate]
        rw [if_neg hnmem, if_neg hcond]
        omega
    · have hind : ∀ x ∈ D.filter (fun x => x ≤ d),
          (if (e.name == s && e.date == x) = true then e.change else 0) = (0 : Int) := by
        intro x _
        simp [hname]
      rw [List.map_congr_left hind]
      have hcond : ¬(e.name == s && decide (e.date ≤ d)) = true := by simp [hname]
      rw [if_neg hcond, List.sum_eq_zero (fun x hx => by
        rcases List.mem_map.mp hx with ⟨y, _, rfl⟩
        rfl)]
      omega

theorem foldl_min_le_init (ds : List Nat) (a : Nat) : ds.foldl Nat.min a ≤ a := by
  induction ds generalizing a with
  | nil => simp
  | cons b ds ih => exact le_trans (ih (Nat.min a b)) (Nat.min_le_left a b)

theorem foldl_min_le_mem (ds : List Nat) (a x : Nat) (h : x ∈ ds) : ds.foldl Nat.min a ≤ x := by
  induction ds generalizing a with
  | nil => cases h
  | cons b ds ih =>
    rcases List.mem_cons.mp h with rfl | h2
    · exact le_trans (foldl_min_le_init ds (Nat.min a x)) (Nat.min_le_right a x)
    · exact ih (Nat.min a b) h2

theorem init_le_foldl_max (ds : List Nat) (a : Nat) : a ≤ ds.foldl Nat.max a := by
  induction ds generalizing a with
  | nil => simp
  | cons b ds ih => exact le_trans (Nat.le_max_left a b) (ih (Nat.max a b))

theorem mem_le_foldl_max (ds : List Nat) (a x : Nat) (h : x ∈ ds) : x ≤ ds.foldl Nat.max a := by
  induction ds generalizing a with
  | nil => cases h
  | cons b ds ih =>
    rcases List.mem_cons.mp h with rfl | h2
    · exact le_trans (Nat.le_max_right a x) (init_le_foldl_max ds (Nat.max a x))
    · exact ih (Nat.max a b) h2

theorem nodup_gridDates (L : List Grant) : (gridDates L).Nodup := by
  unfold gridDates
  cases eventDatesOf L with
  | nil => exact List.nodup_nil
  | cons d0 ds => exact List.nodup_range' _ _

theorem mem_gridDates (L : List Grant) (e : Event) (he : e ∈ allEventsOf L) :
    e.date ∈ gridDates L := by
  have hd : e.date ∈ eventDatesOf L := List.mem_map.mpr ⟨e, he, rfl⟩
  unfold gridDates
  cases hE : eventDatesOf L with
  | nil => rw [hE] at hd; cases hd
  | cons d0 ds =>
    rw [hE] at hd
    apply List.mem_range'_1.mpr
    have hlo : ds.foldl Nat.min d0 ≤ e.date := by
      rcases List.mem_cons.mp hd with h1 | h2
      · rw [h1] at *
        exact foldl_min_le_init ds d0
      · exact foldl_min_le_mem ds d0 e.date h2
    have hhi : e.date ≤ ds.foldl Nat.max d0 := by
      rcases List.mem_cons.mp hd with h1 | h2
      · rw [h1] at *
        exact init_le_foldl_max ds d0
      · exact mem_le_foldl_max ds d0 e.date h2
    omega

theorem gridCum_eq_eventSumUpTo (L : List Grant) (s : String) (d : Nat) :
    gridCum L s d = eventSumUpTo L s d := by
  unfold gridCum eventSumUpTo netDelta
  exact sum_netDelta_filter (gridDates L) (nodup_gridDates L) (allEventsOf L) s d
    (fun e he _ _ => mem_gridDates L e he)

/-- Correctness of the sweep-line reconstruction: the cumulative sum of
collapsed daily deltas at date `d` equals the number of clean records of
the group whose window contains `d`. -/
theorem gridCum_eq_countActive (L : List Grant) (hL : ∀ g ∈ L, effD g ≤ expD g)
    (s : String) (d : Nat) :
    gridCum L s d = (countActive L s d : Int) := by
  rw [gridCum_eq_eventSumUpTo, eventSumUpTo_eq_countActive L hL]

/-! ### Record-field and cleaning lemmas -/

theorem usable_fields {g : Grant} (h : usable g = true) :
    g.eff = some (effD g) ∧ g.exp = some (expD g) ∧ g.stateName = some (nameD g)
      ∧ g.stateCode.isSome = true ∧ effD g ≤ expD g := by
  unfold usable at h
  split at h
  next e x heq1 heq2 =>
    simp only [Bool.and_eq_true, decide_eq_true_eq, Option.isSome_iff_exists] at h
    obtain ⟨⟨⟨n, hn⟩, hc⟩, hex⟩ := h
    obtain ⟨c, hcc⟩ := hc
    refine ⟨by simp [effD, heq1], by simp [expD, heq2], by simp [nameD, hn],
      by simp [hcc], ?_⟩
    simpa [effD, expD, heq1, heq2] using hex
  next => simp at h

theorem usable_eff_le_exp {g : Grant} (h : usable g = true) : effD g ≤ expD g :=
  (usable_fields h).2.2.2.2

theorem mem_cleanRecs_usable {rs : List Grant} {g : Grant} (h : g ∈ cleanRecs rs) :
    usable g = true :=
  (List.mem_filter.mp h).2

theorem cleanRecs_append_not_usable (rs : List Grant) (g : Grant) (h : usable g = false) :
    cleanRecs (rs ++ [g]) = cleanRecs rs := by
  unfold cleanRecs
  rw [List.filter_append]
  simp [h]

theorem cleanRecs_eq_self {rs : List Grant} (h : ∀ g ∈ rs, usable g = true) :
    cleanRecs rs = rs :=
  List.filter_eq_self.mpr h

/-! ### Grouping lemmas -/

theorem sum_countP_key {κ : Type} [BEq κ] [LawfulBEq κ] {α : Type} (l : List α) (key : α → κ)
    (S : List κ) (hS : S.Nodup) (q : α → Bool) :
    (S.map fun s => l.countP fun a => (key a == s) && q a).sum
      = l.countP fun a => decide (key a ∈ S) && q a := by
  induction S with
  | nil => simp
  | cons s S ih =>
    rw [List.nodup_cons] at hS
    rw [List.map_cons, List.sum_cons, ih hS.2, ← countP_or_disjoint]
    · apply List.countP_congr
      intro a _
      by_cases hk : key a = s <;> by_cases hq : q a = true <;>
        simp [hk, hq, List.mem_cons, hS.1]
    · intro a _ hcontra
      obtain ⟨h1, h2⟩ := hcontra
      simp only [Bool.and_eq_true, beq_iff_eq, decide_eq_true_eq] at h1 h2
      exact hS.1 (h1.1 ▸ h2.1)

theorem uniqueAux_nodup_avoid :
    ∀ (l seen : List (Option String)),
      (uniqueAux seen l).Nodup ∧ ∀ x ∈ uniqueAux seen l, x ∉ seen := by
  intro l
  induction l with
  | nil => intro seen; simp [uniqueAux]
  | cons a l ih =>
    intro seen
    simp only [uniqueAux]
    by_cases h : a ∈ seen
    · rw [if_pos h]
      exact ih seen
    · rw [if_neg h]
      have h2 := ih (a :: seen)
      refine ⟨List.nodup_cons.mpr ⟨?_, h2.1⟩, ?_⟩
      · intro hmem
        exact (h2.2 a hmem) (List.mem_cons_self a seen)
      · intro x hx hxseen
        rcases List.mem_cons.mp hx with rfl | hx2
        · exact h hxseen
        · exact (h2.2 x hx2) (List.mem_cons_of_mem a hxseen)

theorem mem_uniqueAux :
    ∀ (l seen : List (Option String)) (x : Option String),
      x ∈ l → x ∈ uniqueAux seen l ∨ x ∈ seen := by
  intro l
  induction l with
  | nil => intro seen x h; cases h
  | cons a l ih =>
    intro seen x h
    simp only [uniqueAux]
    by_cases ha : a ∈ seen
    · rw [if_pos ha]
      rcases List.mem_cons.mp h with rfl | h2
      · exact Or.inr ha
      · exact ih seen x h2
    · rw [if_neg ha]
      rcases List.mem_cons.mp h with rfl | h2
      · exact Or.inl (List.mem_cons_self _ _)
      · rcases ih (a :: seen) x h2 with h3 | h3
        · exact Or.inl (List.mem_cons_of_mem a h3)
        · rcases List.mem_cons.mp h3 with rfl | h4
          · exact Or.inl (List.mem_cons_self _ _)
          · exact Or.inr h4

theorem grantsOfState_some (l : List Grant) (v : String) :
    grantsOfState l (some v) = l.filter (fun g => g.stateCode == some v) :=
  rfl

theorem nodup_uniqueStates (rs : List Grant) : (uniqueStates rs).Nodup :=
  (uniqueAux_nodup_avoid _ []).1

theorem stateCode_mem_uniqueStates {rs : List Grant} {g : Grant} (h : g ∈ rs) :
    g.stateCode ∈ uniqueStates rs := by
  rcases mem_uniqueAux (rs.map (·.stateCode)) [] g.stateCode
      (List.mem_map.mpr ⟨g, h, rfl⟩) with h2 | h2
  · exact h2
  · cases h2

theorem nodup_lifeStates (L : List Grant) : (lifeStates L).Nodup :=
  ((List.perm_insertionSort _ _).nodup_iff).mpr (List.nodup_dedup _)

theorem nameD_mem_lifeStates {L : List Grant} {g : Grant} (h : g ∈ L) :
    nameD g ∈ lifeStates L :=
  (List.perm_insertionSort _ _).mem_iff.mpr
    (List.mem_dedup.mpr (List.mem_map.mpr ⟨g, h, rfl⟩))

theorem sum_countActive (L : List Grant) (d : Nat) :
    ((lifeStates L).map fun s => countActive L s d).sum
      = L.countP fun g => decide (effD g ≤ d) && decide (d ≤ expD g) := by
  unfold countActive
  rw [sum_countP_key L nameD (lifeStates L) (nodup_lifeStates L)]
  apply List.countP_congr
  intro g hg
  simp [nameD_mem_lifeStates hg]

/-- The Allstates column at date `d` counts the clean records, over all
groups, whose window contains `d`. -/
theorem totalCum_eq_count (L : List Grant) (hL : ∀ g ∈ L, effD g ≤ expD g) (d : Nat) :
    totalCum L d
      = ((L.countP fun g => decide (effD g ≤ d) && decide (d ≤ expD g) : Nat) : Int) := by
  unfold totalCum
  rw [List.map_congr_left fun s _ => gridCum_eq_countActive L hL s d,
    ← sum_countActive L d, Nat.cast_list_sum, List.map_map]
  rfl

/-! ### Shape lemmas for the snapshot tables -/

theorem mem_yearRows {rs : List Grant} {s : Option String} (hs : s ∈ uniqueStates rs)
    {y : Nat} (hy1 : 2020 ≤ y) (hy2 : y < 2026) :
    mkYearRow rs s y ∈ yearRows rs :=
  List.mem_flatMap.mpr ⟨s, hs,
    List.mem_map.mpr ⟨y, List.mem_range'_1.mpr ⟨hy1, by omega⟩, rfl⟩⟩

theorem yearRows_shape {rs : List Grant} {row : YearRow} (h : row ∈ yearRows rs) :
    ∃ s ∈ uniqueStates rs, ∃ y, 2020 ≤ y ∧ y < 2026 ∧ row = mkYearRow rs s y := by
  rcases List.mem_flatMap.mp h with ⟨s, hs, h2⟩
  rcases List.mem_map.mp h2 with ⟨y, hy, rfl⟩
  have hy2 := List.mem_range'_1.mp hy
  exact ⟨s, hs, y, hy2.1, by omega, rfl⟩

theorem mem_yearRowsV2 {rs : List Grant} {s : Option String} (hs : s ∈ uniqueStates rs)
    {y : Nat} (hy1 : 2020 ≤ y) (hy2 : y < 2026) :
    mkYearRowV2 rs s y ∈ yearRowsV2 rs :=
  List.mem_flatMap.mpr ⟨s, hs,
    List.mem_map.mpr ⟨y, List.mem_range'_1.mpr ⟨hy1, by omega⟩, rfl⟩⟩

theorem yearRowsV2_shape {rs : List Grant} {row : YearRow} (h : row ∈ yearRowsV2 rs) :
    ∃ s ∈ uniqueStates rs, ∃ y, 2020 ≤ y ∧ y < 2026 ∧ row = mkYearRowV2 rs s y := by
  rcases List.mem_flatMap.mp h with ⟨s, hs, h2⟩
  rcases List.mem_map.mp h2 with ⟨y, hy, rfl⟩
  have hy2 := List.mem_range'_1.mp hy
  exact ⟨s, hs, y, hy2.1, by omega, rfl⟩

theorem uniqueStates_ne_nil {rs : List Grant} (h : rs ≠ []) : uniqueStates rs ≠ [] := by
  cases rs with
  | nil => exact absurd rfl h
  | cons g rs2 =>
    unfold uniqueStates
    simp only [List.map_cons, uniqueAux]
    rw [if_neg (List.not_mem_nil _)]
    exact List.cons_ne_nil _ _

theorem attachFips_ok {results : List YearRow} (h : results ≠ []) :
    attachFips results
      = .ok (results.filterMap fun r => (fipsOf r.state).map fun i => { toYearRow := r, id := i }) := by
  unfold attachFips
  rw [if_neg (by simpa [List.isEmpty_iff] using h)]

theorem prepare_ok_of_ne_nil (rs : List Grant) (h : rs ≠ []) :
    ∃ l, prepare_grants_by_state_data rs = .ok l := by
  have h1 : yearRows rs ≠ [] := by
    cases hu : uniqueStates rs with
    | nil => exact absurd hu (uniqueStates_ne_nil h)
    | cons s S =>
      unfold yearRows
      rw [hu]
      intro hcontra
      have : mkYearRow rs s 2020 ∈ ([] : List YearRow) := by
        rw [← hcontra]
        exact List.mem_flatMap.mpr ⟨s, List.mem_cons_self _ _,
          List.mem_map.mpr ⟨2020, List.mem_range'_1.mpr ⟨le_refl _, by omega⟩, rfl⟩⟩
      cases this
  exact ⟨_, attachFips_ok h1⟩

theorem uniqueAux_subset :
    ∀ (l seen : List (Option String)) (x : Option String), x ∈ uniqueAux seen l → x ∈ l := by
  intro l
  induction l with
  | nil => intro seen x h; simp [uniqueAux] at h
  | cons a l ih =>
    intro seen x h
    simp only [uniqueAux] at h
    by_cases ha : a ∈ seen
    · rw [if_pos ha] at h
      exact List.mem_cons_of_mem a (ih seen x h)
    · rw [if_neg ha] at h
      rcases List.mem_cons.mp h with rfl | h2
      · exact List.mem_cons_self _ _
      · exact List.mem_cons_of_mem a (ih (a :: seen) x h2)

theorem mem_uniqueStates_exists {rs : List Grant} {s : Option String}
    (h : s ∈ uniqueStates rs) : ∃ g ∈ rs, g.stateCode = s := by
  unfold uniqueStates at h
  have h2 := uniqueAux_subset _ [] s h
  rcases List.mem_map.mp h2 with ⟨g, hg, hgs⟩
  exact ⟨g, hg, hgs⟩

theorem mem_lifecycle_rows {rs : List Grant} {s : String} {d : Nat}
    (hs : s ∈ lifeStates (cleanRecs rs)) (hd : d ∈ outDates (cleanRecs rs))
    (hns : (s == "Allstates") = false) :
    (⟨d, s, gridCum (cleanRecs rs) s d⟩ : TSRow) ∈ prepare_lifecycle_data_with_statecode rs := by
  unfold prepare_lifecycle_data_with_statecode
  refine List.mem_flatMap.mpr ⟨s, List.mem_append_left _ hs, List.mem_map.mpr ⟨d, hd, ?_⟩⟩
  simp [hns]

theorem mem_lifecycle_monthly {rs : List Grant} {c : String} {d : Nat}
    (hc : c ∈ sortedCodes rs) (hd : d ∈ monthStarts) :
    ({ date := d, state := firstNameOf rs c, state_code := c,
       count := (rs.filter (fun g => g.stateCode == some c)).countP
         (fun g => activeOnDate g d) } : TSRowV2) ∈ prepare_lifecycle_data rs := by
  unfold prepare_lifecycle_data
  exact List.mem_flatMap.mpr ⟨c, hc, List.mem_map.mpr ⟨d, hd, rfl⟩⟩

/-! ### Concrete records of the specification's scenarios -/

/-- Scenario grant of C1: group "Y", effective and expiration 2020-01-01. -/
def grantY : Grant :=
  ⟨some (toDay 2020 1 1), some (toDay 2020 1 1), some "YY", some "Y", false⟩

/-- Scenario grant A of C2: effective 2021-03-01, expiration 2023-06-30. -/
def grantA : Grant :=
  ⟨some (toDay 2021 3 1), some (toDay 2023 6 30), some "TX", some "Texas", false⟩

/-- Scenario grant B of C2: effective 2022-01-01, expiration 2030-01-01,
terminated. -/
def grantB : Grant :=
  ⟨some (toDay 2022 1 1), some (toDay 2030 1 1), some "TX", some "Texas", true⟩

/-- A terminated grant with expiration far beyond the window-clip date. -/
def grantT : Grant :=
  ⟨some (toDay 2020 1 5), some (toDay 2030 1 1), some "CA", some "California", true⟩

/-- A grant in Guam, whose state code has no STATE_FIPS entry. -/
def grantGU : Grant :=
  ⟨some (toDay 2021 1 1), some (toDay 2024 1 1), some "GU", some "Guam", false⟩

/-- A grant with a degenerate window: effective 2022-06-01 after expiration
2022-03-01, both inside the year 2022. -/
def grantBad : Grant :=
  ⟨some (toDay 2022 6 1), some (toDay 2022 3 1), some "CA", some "California", false⟩

/-- C8 scenario grant: active throughout 2025. -/
def grantC (t : Bool) : Grant :=
  ⟨some (toDay 2025 1 1), some (toDay 2025 12 31), some "CA", some "California", t⟩

/-- C8 scenario input: three active grants, one terminated. -/
def rs8 : List Grant := [grantC true, grantC false, grantC false]

/-- C5 scenario: an early Alabama grant and a late Wyoming grant. -/
def grantAL : Grant :=
  ⟨some (toDay 2020 1 1), some (toDay 2020 6 1), some "AL", some "Alabama", false⟩

/-- C5 scenario: the Wyoming grant starts only on 2021-01-01. -/
def grantWY : Grant :=
  ⟨some (toDay 2021 1 1), some (toDay 2021 6 1), some "WY", some "Wyoming", false⟩

/-- C5 scenario input. -/
def rs5 : List Grant := [grantAL, grantWY]

/-- C4 scenario: active only on 2022-01-01 and 2022-01-02. -/
def grant1 : Grant :=
  ⟨some (toDay 2022 1 1), some (toDay 2022 1 2), some "TX", some "Texas", false⟩

/-- C4 scenario: active only on 2022-12-30 and 2022-12-31. -/
def grant2 : Grant :=
  ⟨some (toDay 2022 12 30), some (toDay 2022 12 31), some "TX", some "Texas", false⟩

/-- C4 scenario input: two disjoint short windows inside 2022. -/
def rs4 : List Grant := [grant1, grant2]

/-- Sum over state groups of the yearly snapshot active counts ("sum over
groups of active_count computed by the yearly direct interval-overlap
path"). -/
def yearlyTotal (rs : List Grant) (y : Nat) : Nat :=
  ((uniqueStates rs).map fun s => numActive (grantsOfState rs s) y).sum

/-! ### Claim C7 -/

/-- C7 counterexample: on the empty input table the time-series path does
return zero rows, but the yearly snapshot path does not: its `results` list
is empty, `pd.DataFrame([])` has no columns, and the column access
`grants_df['state']` raises a KeyError instead of producing an empty
table. -/
theorem C7_counterexample :
    prepare_lifecycle_data_with_statecode [] = []
      ∧ prepare_grants_by_state_data [] = .error "KeyError: state" :=
  ⟨rfl, rfl⟩

/-- C7 amended claim: on empty input both time-series paths return zero
rows and raise nothing, but both yearly snapshot paths raise a KeyError
(modelled as `Except.error`); on any nonempty input the yearly snapshot
path returns normally. -/
theorem C7_empty_input :
    prepare_lifecycle_data_with_statecode [] = []
      ∧ prepare_lifecycle_data [] = []
      ∧ prepare_grants_by_state_data [] = .error "KeyError: state"
      ∧ prepare_grants_by_state_year [] = .error "KeyError: state"
      ∧ ∀ rs : List Grant, rs ≠ [] → ∃ l, prepare_grants_by_state_data rs = Except.ok l :=
  ⟨rfl, rfl, rfl, rfl, prepare_ok_of_ne_nil⟩

/-- Witness for C7: the nonempty-input conjunct at a concrete input. -/
theorem C7_witness : (prepare_grants_by_state_data [grantY]).isOk = true := by
  rcases C7_empty_input.2.2.2.2 [grantY] (by simp) with ⟨l, hl⟩
  rw [hl]
  rfl

/-! ### Claim C10 -/

/-- C10: a state code absent from STATE_FIPS (Guam, Virgin Islands,
American Samoa) is silently dropped from the yearly snapshot output: its
rows are first computed (one per year 2020..2025 in `results`) and then
removed when the FIPS id map yields null, so no row of the public output
carries such a state. -/
theorem C10_fips_silent_drop :
    (fipsOf (some "GU") = none ∧ fipsOf (some "VI") = none ∧ fipsOf (some "AS") = none)
      ∧ (∀ (rs : List Grant) (s : String), fipsOf (some s) = none →
          ∀ l, prepare_grants_by_state_data rs = Except.ok l →
            ∀ row ∈ l, row.state ≠ some s)
      ∧ (∀ (rs : List Grant) (s : String), some s ∈ uniqueStates rs →
          ∀ y, 2020 ≤ y → y < 2026 →
            ∃ row ∈ yearRows rs, row.state = some s ∧ row.year = y) := by
  refine ⟨⟨rfl, rfl, rfl⟩, ?_, ?_⟩
  · intro rs s hs l hl row hrow hstate
    unfold prepare_grants_by_state_data attachFips at hl
    by_cases hempty : (yearRows rs).isEmpty = true
    · rw [if_pos hempty] at hl
      cases hl
    · rw [if_neg hempty] at hl
      injection hl with hl2
      rw [← hl2] at hrow
      rcases List.mem_filterMap.mp hrow with ⟨r, _, heq⟩
      rcases Option.map_eq_some'.mp heq with ⟨i, hfips, hrow_eq⟩
      rw [← hrow_eq] at hstate
      have h3 : r.state = some s := hstate
      rw [h3, hs] at hfips
      cases hfips
  · intro rs s hs y hy1 hy2
    exact ⟨mkYearRow rs (some s) y, mem_yearRows hs hy1 hy2, rfl, rfl⟩

/-- The rows of a snapshot result, empty when the computation raised. -/
def okRows : Except String (List YearRowId) → List YearRowId
  | .ok l => l
  | .error _ => []

/-- Input of the C10 witness: a Guam grant next to a California one. -/
def rs10 : List Grant := [grantGU, grantT]

/-- Witness for C10: in the mixed Guam/California input, the surviving
California row of the public output does not carry the FIPS-less Guam
code. -/
theorem C10_witness :
    ({ toYearRow := mkYearRow rs10 (some "CA") 2020, id := 6 } : YearRowId).state
      ≠ some "GU" := by
  have hok : prepare_grants_by_state_data rs10
      = Except.ok ((yearRows rs10).filterMap
          fun r => (fipsOf r.state).map fun i => { toYearRow := r, id := i }) :=
    attachFips_ok (by decide)
  apply C10_fips_silent_drop.2.1 rs10 "GU" rfl _ hok
  exact List.mem_filterMap.mpr ⟨mkYearRow rs10 (some "CA") 2020,
    mem_yearRows (by decide) (by omega) (by omega), rfl⟩

/-! ### Claim C9 -/

/-- C9: active counts are never negative.  Because only records with
effective ≤ expiration are kept, the cumulative sum of signed deltas of a
group equals a count of records, so it is non-negative, and every emitted
time-series row carries a non-negative count. -/
theorem C9_counts_nonneg :
    (∀ (rs : List Grant) (s : String) (d : Nat), 0 ≤ gridCum (cleanRecs rs) s d)
      ∧ ∀ (rs : List Grant), ∀ row ∈ prepare_lifecycle_data_with_statecode rs,
          0 ≤ row.count := by
  have hbase : ∀ (rs : List Grant) (s : String) (d : Nat), 0 ≤ gridCum (cleanRecs rs) s d := by
    intro rs s d
    rw [gridCum_eq_countActive _ (fun g hg => usable_eff_le_exp (mem_cleanRecs_usable hg))]
    exact Int.ofNat_nonneg _
  refine ⟨hbase, ?_⟩
  intro rs row hrow
  unfold prepare_lifecycle_data_with_statecode at hrow
  rcases List.mem_flatMap.mp hrow with ⟨s, hsmem, h2⟩
  rcases List.mem_map.mp h2 with ⟨d, hd, rfl⟩
  show 0 ≤ (if (s == "Allstates") = true then totalCum (cleanRecs rs) d
    else gridCum (cleanRecs rs) s d)
  by_cases hall : (s == "Allstates") = true
  · rw [if_pos hall,
      totalCum_eq_count _ (fun g hg => usable_eff_le_exp (mem_cleanRecs_usable hg))]
    exact Int.ofNat_nonneg _
  · rw [if_neg hall]
    exact hbase rs s d

/-- Witness for C9: the row-membership conjunct at a concrete input. -/
theorem C9_witness :
    0 ≤ (⟨toDay 2020 1 1, "Y", gridCum (cleanRecs [grantY]) "Y" (toDay 2020 1 1)⟩ : TSRow).count :=
  C9_counts_nonneg.2 [grantY] _ (mem_lifecycle_rows (by decide) (by decide) (by decide))

/-! ### Claim C2 -/

/-- The grant table of the C2 scenario after the streamlit_v2 load step:
grant B's expiration is clipped to 2025-12-31. -/
def rsAB : List Grant := load_data_v2 [grantA, grantB]

/-- C2: every yearly snapshot row's active count is the direct overlap
count `effective ≤ Dec-31-Y and expiration ≥ Jan-1-Y` over that group's
grants, years range over 2020..2025 only, and the concrete A/B scenario
gives 2 for 2022, 1 for 2024 and no 2026 row. -/
theorem C2_yearly_snapshot :
    (∀ (rs : List Grant), ∀ row ∈ yearRowsV2 rs,
        row.num_grants
            = (grantsOfState rs row.state).countP
                (fun g => dle g.eff (yearEnd row.year) && dge g.exp (yearStart row.year))
          ∧ 2020 ≤ row.year ∧ row.year ≤ 2025)
      ∧ (∃ row ∈ yearRowsV2 rsAB, row.state = some "TX" ∧ row.year = 2022 ∧ row.num_grants = 2)
      ∧ (∃ row ∈ yearRowsV2 rsAB, row.state = some "TX" ∧ row.year = 2024 ∧ row.num_grants = 1)
      ∧ (∀ row ∈ yearRowsV2 rsAB, row.year ≠ 2026) := by
  refine ⟨?_, ?_, ?_, ?_⟩
  · intro rs row h
    rcases yearRowsV2_shape h with ⟨s, hs, y, hy1, hy2, rfl⟩
    refine ⟨rfl, hy1, ?_⟩
    show y ≤ 2025
    omega
  · exact ⟨mkYearRowV2 rsAB (some "TX") 2022,
      mem_yearRowsV2 (by decide) (by omega) (by omega), rfl, rfl, by decide⟩
  · exact ⟨mkYearRowV2 rsAB (some "TX") 2024,
      mem_yearRowsV2 (by decide) (by omega) (by omega), rfl, rfl, by decide⟩
  · intro row h
    rcases yearRowsV2_shape h with ⟨s, hs, y, hy1, hy2, rfl⟩
    show y ≠ 2026
    omega

/-- Witness for C2: the universally quantified conjunct at a concrete
row. -/
theorem C2_witness :
    (mkYearRowV2 rsAB (some "TX") 2022).num_grants
        = (grantsOfState rsAB (mkYearRowV2 rsAB (some "TX") 2022).state).countP
            (fun g => dle g.eff (yearEnd (mkYearRowV2 rsAB (some "TX") 2022).year)
              && dge g.exp (yearStart (mkYearRowV2 rsAB (some "TX") 2022).year))
      ∧ 2020 ≤ (mkYearRowV2 rsAB (some "TX") 2022).year
      ∧ (mkYearRowV2 rsAB (some "TX") 2022).year ≤ 2025 :=
  C2_yearly_snapshot.1 rsAB _ (mem_yearRowsV2 (by decide) (by omega) (by omega))

/-! ### Claim C8 -/

/-- C8 counterexample: the emitted `terminated_pct` is the 2-decimal
rounding of the ratio: with 3 active grants of which 1 terminated the
emitted value is 33.33, which is not 100·1/3. -/
theorem C8_counterexample :
    mkYearRow rs8 (some "CA") 2025 ∈ yearRows rs8
      ∧ (mkYearRow rs8 (some "CA") 2025).num_grants = 3
      ∧ (mkYearRow rs8 (some "CA") 2025).terminated_grants = 1
      ∧ (mkYearRow rs8 (some "CA") 2025).terminated_pct = 3333 / 100
      ∧ (3333 : ℚ) / 100 ≠ 100 * 1 / 3 := by
  refine ⟨mem_yearRows (by decide) (by omega) (by omega), by decide, by decide, ?_, by norm_num⟩
  show round2 (pctRaw (terminatedCount (grantsOfState rs8 (some "CA")) 2025)
      (numActive (grantsOfState rs8 (some "CA")) 2025)) = 3333 / 100
  have h1 : terminatedCount (grantsOfState rs8 (some "CA")) 2025 = 1 := by decide
  have h2 : numActive (grantsOfState rs8 (some "CA")) 2025 = 3 := by decide
  rw [h1, h2]
  norm_num [pctRaw, round2, rhalfEven]

/-- C8 amended claim: for every group and year, the emitted percentage is
the 2-decimal rounding of 100 × terminated_count / active_count when
active_count > 0 and exactly 0 when active_count = 0 — the
division-by-zero branch is guarded, in both snapshot paths. -/
theorem C8_guarded_percentage :
    (∀ (rs : List Grant), ∀ row ∈ yearRows rs,
        (row.num_grants = 0 → row.terminated_pct = 0)
          ∧ (0 < row.num_grants →
              row.terminated_pct
                = round2 (100 * (row.terminated_grants : ℚ) / (row.num_grants : ℚ))))
      ∧ (∀ (rs : List Grant), ∀ row ∈ yearRowsV2 rs,
          (row.num_grants = 0 → row.terminated_pct = 0)
            ∧ (0 < row.num_grants →
                row.terminated_pct
                  = round2 (100 * (row.terminated_grants : ℚ) / (row.num_grants : ℚ)))) := by
  have key : ∀ t a : Nat,
      (a = 0 → round2 (pctRaw t a) = 0)
        ∧ (0 < a → round2 (pctRaw t a) = round2 (100 * (t : ℚ) / (a : ℚ))) := by
    intro t a
    constructor
    · intro ha
      subst ha
      norm_num [pctRaw, round2, rhalfEven]
    · intro ha
      have hval : pctRaw t a = 100 * (t : ℚ) / (a : ℚ) := by
        unfold pctRaw
        rw [if_pos ha]
        ring
      rw [hval]
  constructor
  · intro rs row h
    rcases yearRows_shape h with ⟨s, hs, y, hy1, hy2, rfl⟩
    exact key _ _
  · intro rs row h
    rcases yearRowsV2_shape h with ⟨s, hs, y, hy1, hy2, rfl⟩
    exact key _ _

/-- Witness for C8: the guarded rounded formula at a concrete row. -/
theorem C8_witness :
    (mkYearRow rs8 (some "CA") 2025).terminated_pct
      = round2 (100 * ((mkYearRow rs8 (some "CA") 2025).terminated_grants : ℚ)
          / ((mkYearRow rs8 (some "CA") 2025).num_grants : ℚ)) :=
  (C8_guarded_percentage.1 rs8 _ (mem_yearRows (by decide) (by omega) (by omega))).2 (by decide)

/-! ### Claim C1 -/

/-- C1: the Active-Interval Index emits exactly two signed events per
usable record — (effective, group, +1) and (expiration + 1 day, group,
−1) —, collapses same-day deltas per group, and the running cumulative sum
reconstructs the active count; on the two-grant scenario the collapsed
index holds +2 on 2020-01-01 and −2 on 2020-01-02 and nothing else, with
active counts 2 and 0 on those days. -/
theorem C1_event_index :
    (∀ rs : List Grant, (allEventsOf (cleanRecs rs)).length = 2 * (cleanRecs rs).length)
      ∧ (∀ (rs : List Grant), ∀ g ∈ cleanRecs rs,
          (⟨effD g, nameD g, 1⟩ : Event) ∈ allEventsOf (cleanRecs rs)
            ∧ (⟨expD g + 1, nameD g, -1⟩ : Event) ∈ allEventsOf (cleanRecs rs))
      ∧ (∀ (rs : List Grant) (s : String) (d : Nat),
          gridCum (cleanRecs rs) s d = (countActive (cleanRecs rs) s d : Int))
      ∧ netDelta (cleanRecs [grantY, grantY]) "Y" (toDay 2020 1 1) = 2
      ∧ netDelta (cleanRecs [grantY, grantY]) "Y" (toDay 2020 1 2) = -2
      ∧ (∀ d : Nat, d ≠ toDay 2020 1 1 → d ≠ toDay 2020 1 2 →
          netDelta (cleanRecs [grantY, grantY]) "Y" d = 0)
      ∧ gridCum (cleanRecs [grantY, grantY]) "Y" (toDay 2020 1 1) = 2
      ∧ gridCum (cleanRecs [grantY, grantY]) "Y" (toDay 2020 1 2) = 0 := by
  refine ⟨?_, ?_, ?_, by decide, by decide, ?_, by decide, by decide⟩
  · intro rs
    simp only [allEventsOf, startEventsOf, endEventsOf, List.length_append, List.length_map]
    omega
  · intro rs g hg
    unfold allEventsOf startEventsOf endEventsOf
    exact ⟨List.mem_append_left _ (List.mem_map.mpr ⟨g, hg, rfl⟩),
      List.mem_append_right _ (List.mem_map.mpr ⟨g, hg, rfl⟩)⟩
  · intro rs s d
    exact gridCum_eq_countActive _ (fun g hg => usable_eff_le_exp (mem_cleanRecs_usable hg)) s d
  · intro d h1 h2
    have hclean : cleanRecs [grantY, grantY] = [grantY, grantY] := by decide
    have hev : allEventsOf [grantY, grantY]
        = [⟨737425, "Y", 1⟩, ⟨737425, "Y", 1⟩, ⟨737426, "Y", -1⟩, ⟨737426, "Y", -1⟩] := by
      decide
    have hda : toDay 2020 1 1 = 737425 := by decide
    have hdb : toDay 2020 1 2 = 737426 := by decide
    rw [hda] at h1
    rw [hdb] at h2
    unfold netDelta
    rw [hclean, hev]
    have hc1 : ((737425 : Nat) == d) = false := beq_eq_false_iff_ne.mpr (Ne.symm h1)
    have hc2 : ((737426 : Nat) == d) = false := beq_eq_false_iff_ne.mpr (Ne.symm h2)
    simp [List.filter_cons, hc1, hc2, eventsSum]

/-- Witness for C1: the per-record event membership and the
zero-delta-elsewhere conjunct at concrete inputs. -/
theorem C1_witness :
    ((⟨effD grantY, nameD grantY, 1⟩ : Event) ∈ allEventsOf (cleanRecs [grantY])
        ∧ (⟨expD grantY + 1, nameD grantY, -1⟩ : Event) ∈ allEventsOf (cleanRecs [grantY]))
      ∧ netDelta (cleanRecs [grantY, grantY]) "Y" 737430 = 0 :=
  ⟨C1_event_index.2.1 [grantY] grantY (by decide),
   C1_event_index.2.2.2.2.2.1 737430 (by decide) (by decide)⟩

/-! ### Claim C5 -/

/-- On the C5 input, Wyoming's cumulative count is zero strictly before
2021-01-01 (its grant's effective date). -/
theorem rs5_wyoming_zero_before (d : Nat) (hd : d < toDay 2021 1 1) :
    gridCum (cleanRecs rs5) "Wyoming" d = 0 := by
  rw [gridCum_eq_countActive _ (fun g hg => usable_eff_le_exp (mem_cleanRecs_usable hg))]
  have hd2 : d < 737791 := by
    have he : toDay 2021 1 1 = 737791 := by decide
    omega
  have hc : countActive (cleanRecs rs5) "Wyoming" d = 0 := by
    have hclean : cleanRecs rs5 = [grantAL, grantWY] := by decide
    rw [hclean]
    unfold countActive
    rw [List.countP_cons, List.countP_cons, List.countP_nil]
    have h1 : (nameD grantAL == "Wyoming") = false := by decide
    have h2 : decide (effD grantWY ≤ d) = false := by
      have he2 : effD grantWY = 737791 := by decide
      simp only [decide_eq_false_iff_not]
      omega
    simp [h1, h2]
  rw [hc]
  rfl

/-- C5 counterexample: no trimming happens: with an Alabama grant starting
2020-01-01 and a Wyoming grant starting 2021-01-01, the emitted series for
Wyoming contains the row (2020-01-01, Wyoming, 0).  Every emitted date is
≥ 2020-01-01 and Wyoming's count is 0 there and first positive on
2021-01-01, so this zero row is dated before Wyoming's first
positive-count date. -/
theorem C5_counterexample :
    (⟨toDay 2020 1 1, "Wyoming", 0⟩ : TSRow) ∈ prepare_lifecycle_data_with_statecode rs5
      ∧ (outDates (cleanRecs rs5)).all (fun d => decide (toDay 2020 1 1 ≤ d)) = true
      ∧ gridCum (cleanRecs rs5) "Wyoming" (toDay 2020 1 1) = 0
      ∧ gridCum (cleanRecs rs5) "Wyoming" (toDay 2021 1 1) = 1
      ∧ ((outDates (cleanRecs rs5)).filter (fun d => d < toDay 2021 1 1)).all
          (fun d => decide (gridCum (cleanRecs rs5) "Wyoming" d = 0)) = true
      ∧ toDay 2020 1 1 < toDay 2021 1 1 := by
  refine ⟨?_, by decide, rs5_wyoming_zero_before _ (by decide), by decide, ?_, by decide⟩
  · have hval : gridCum (cleanRecs rs5) "Wyoming" (toDay 2020 1 1) = 0 :=
      rs5_wyoming_zero_before _ (by decide)
    have hmem := @mem_lifecycle_rows rs5 "Wyoming" (toDay 2020 1 1)
      (by decide) (by decide) (by decide)
    rwa [hval] at hmem
  · refine List.all_eq_true.mpr ?_
    intro d hd
    exact decide_eq_true
      (rs5_wyoming_zero_before d (by simpa using (List.mem_filter.mp hd).2))

/-- C5 amended claim: no trimming is performed: every group's series spans
the entire shared output range — the daily path from
max(2020-01-01, earliest event date over all groups) to
min(2026-01-01, latest event date), the monthly path all 72 month starts —
including leading dates where the group's active count is still 0. -/
theorem C5_no_trimming :
    (∀ (rs : List Grant) (s : String) (d : Nat),
        s ∈ lifeStates (cleanRecs rs) → d ∈ outDates (cleanRecs rs) →
        (s == "Allstates") = false →
        (⟨d, s, gridCum (cleanRecs rs) s d⟩ : TSRow) ∈ prepare_lifecycle_data_with_statecode rs)
      ∧ (∀ (rs : List Grant) (c : String) (d : Nat),
          c ∈ sortedCodes rs → d ∈ monthStarts →
          ({ date := d, state := firstNameOf rs c, state_code := c,
             count := (rs.filter (fun g => g.stateCode == some c)).countP
               (fun g => activeOnDate g d) } : TSRowV2) ∈ prepare_lifecycle_data rs) :=
  ⟨fun _ _ _ hs hd hns => mem_lifecycle_rows hs hd hns,
   fun _ _ _ hc hd => mem_lifecycle_monthly hc hd⟩

/-- Witness for C5: Wyoming's series carries its (zero-count) row on
2020-01-01. -/
theorem C5_witness :
    (⟨toDay 2020 1 1, "Wyoming", gridCum (cleanRecs rs5) "Wyoming" (toDay 2020 1 1)⟩ : TSRow)
      ∈ prepare_lifecycle_data_with_statecode rs5 :=
  C5_no_trimming.1 rs5 "Wyoming" (toDay 2020 1 1) (by decide) (by decide) (by decide)

/-! ### Claim C6 -/

/-- C6 counterexample: a degenerate-window record (effective 2022-06-01 >
expiration 2022-03-01) is dropped by the event-index path but still counts
in the yearly snapshot path: the 2022 row of its state carries
active_count 1, and that row survives to the public output. -/
theorem C6_counterexample :
    usable grantBad = false
      ∧ prepare_lifecycle_data_with_statecode [grantBad] = []
      ∧ mkYearRow [grantBad] (some "CA") 2022 ∈ yearRows [grantBad]
      ∧ (mkYearRow [grantBad] (some "CA") 2022).num_grants = 1
      ∧ ({ toYearRow := mkYearRow [grantBad] (some "CA") 2022, id := 6 } : YearRowId)
          ∈ okRows (prepare_grants_by_state_data [grantBad]) := by
  refine ⟨by decide, rfl, mem_yearRows (by decide) (by omega) (by omega), by decide, ?_⟩
  have hok : okRows (prepare_grants_by_state_data [grantBad])
      = (yearRows [grantBad]).filterMap
          fun r => (fipsOf r.state).map fun i => { toYearRow := r, id := i } := by
    unfold prepare_grants_by_state_data
    rw [attachFips_ok (by decide)]
    rfl
  rw [hok]
  exact List.mem_filterMap.mpr ⟨mkYearRow [grantBad] (some "CA") 2022,
    mem_yearRows (by decide) (by omega) (by omega), rfl⟩

/-- C6 amended claim: records failing the clean filter (missing field or
degenerate window) are dropped from the event-index path entirely; in the
yearly snapshot path records missing a date or the state code contribute
to no group's count, and no record makes the pipeline abort on nonempty
input — but a degenerate-window record still counts toward any year whose
span contains both of its dates. -/
theorem C6_malformed_handling :
    (∀ (rs : List Grant) (g : Grant), usable g = false →
        prepare_lifecycle_data_with_statecode (rs ++ [g])
          = prepare_lifecycle_data_with_statecode rs)
      ∧ (∀ (rs : List Grant) (g : Grant) (v : String) (y : Nat),
          (g.eff = none ∨ g.exp = none) →
          numActive (grantsOfState (rs ++ [g]) (some v)) y
            = numActive (grantsOfState rs (some v)) y)
      ∧ (∀ (rs : List Grant) (g : Grant) (v : String) (y : Nat),
          g.stateCode = none →
          numActive (grantsOfState (rs ++ [g]) (some v)) y
            = numActive (grantsOfState rs (some v)) y)
      ∧ (∀ rs : List Grant, rs ≠ [] → ∃ l, prepare_grants_by_state_data rs = Except.ok l)
      ∧ numActive (grantsOfState [grantBad] (some "CA")) 2022 = 1 := by
  refine ⟨?_, ?_, ?_, prepare_ok_of_ne_nil, by decide⟩
  · intro rs g hg
    unfold prepare_lifecycle_data_with_statecode
    rw [cleanRecs_append_not_usable rs g hg]
  · intro rs g v y hnone
    unfold numActive
    rw [grantsOfState_some, grantsOfState_some, List.filter_append, List.countP_append]
    have hz : (List.filter (fun g2 => g2.stateCode == some v) [g]).countP
        (fun g2 => activeInYear g2 y) = 0 := by
      rcases hnone with h | h <;>
        by_cases hcq : (g.stateCode == some v) = true <;>
        simp [List.filter_cons, hcq, List.countP_cons, activeInYear, dle, dge, h]
    omega
  · intro rs g v y hcode
    unfold numActive
    rw [grantsOfState_some, grantsOfState_some, List.filter_append, List.countP_append]
    have hz : (List.filter (fun g2 => g2.stateCode == some v) [g]).countP
        (fun g2 => activeInYear g2 y) = 0 := by
      have hfalse : (g.stateCode == some v) = false := by
        rw [hcode]
        rfl
      simp [List.filter_cons, hfalse]
    omega

/-- Witness for C6: appending the degenerate record leaves the
event-index output unchanged. -/
theorem C6_witness :
    prepare_lifecycle_data_with_statecode ([grantY] ++ [grantBad])
      = prepare_lifecycle_data_with_statecode [grantY] :=
  C6_malformed_handling.1 [grantY] grantBad (by decide)

/-! ### Claim C3 -/

/-- The analysis_functions lifecycle path counts the never-clipped
terminated grant `grantT` (expiration 2030-01-01) as active on 2026-01-01,
a bucket after the clip date. -/
theorem grantT_active_after_clip :
    (⟨toDay 2026 1 1, "California", 1⟩ : TSRow) ∈ prepare_lifecycle_data_with_statecode [grantT] := by
  have hval : gridCum (cleanRecs [grantT]) "California" (toDay 2026 1 1) = 1 := by
    rw [gridCum_eq_countActive _ (fun g hg => usable_eff_le_exp (mem_cleanRecs_usable hg))]
    have hc : countActive (cleanRecs [grantT]) "California" (toDay 2026 1 1) = 1 := by decide
    rw [hc]
    rfl
  have hmem := @mem_lifecycle_rows [grantT] "California" (toDay 2026 1 1)
    (by decide) (by decide) (by decide)
  rwa [hval] at hmem

/-- C3 counterexample: a terminated grant with expiration beyond the clip
date does contribute to a bucket after the clip date: the
analysis_functions path never clips, and its emitted range reaches
2026-01-01 > 2025-12-31. -/
theorem C3_counterexample :
    grantT.terminated = true
      ∧ dge grantT.exp (clipDate + 1) = true
      ∧ clipDate < toDay 2026 1 1
      ∧ (⟨toDay 2026 1 1, "California", 1⟩ : TSRow)
          ∈ prepare_lifecycle_data_with_statecode [grantT] :=
  ⟨rfl, by decide, by decide, grantT_active_after_clip⟩

/-- C3 amended claim: clipping exists only in the streamlit_v2 path: its
load step caps a terminated grant so that it is active on no date after
the clip date, and every bucket that path emits (month starts, year ends)
lies on or before the clip date; the analysis_functions path applies no
clipping and a terminated grant with a later expiration still counts in
its 2026-01-01 bucket, after the clip date. -/
theorem C3_clipping_only_v2 :
    (∀ g : Grant, g.terminated = true → ∀ d : Nat, clipDate < d →
        activeOnDate (capGrant g) d = false)
      ∧ (∀ d ∈ monthStarts, d ≤ clipDate)
      ∧ (∀ y : Nat, 2020 ≤ y → y ≤ 2025 → yearEnd y ≤ clipDate)
      ∧ (⟨toDay 2026 1 1, "California", 1⟩ : TSRow)
          ∈ prepare_lifecycle_data_with_statecode [grantT] := by
  refine ⟨?_, ?_, ?_, grantT_active_after_clip⟩
  · intro g ht d hd
    unfold capGrant activeOnDate
    by_cases hc : (g.terminated && (match g.exp with
        | some e => decide (clipDate < e)
        | none => false)) = true
    · rw [if_pos hc]
      have hdge : dge (some clipDate) d = false := by
        simp only [dge, decide_eq_false_iff_not]
        omega
      show (dle g.eff d && dge (some clipDate) d) = false
      rw [hdge, Bool.and_false]
    · rw [if_neg hc]
      rw [ht] at hc
      simp only [Bool.true_and] at hc
      cases hx : g.exp with
      | none =>
        show (dle g.eff d && dge none d) = false
        rw [show dge none d = false from rfl, Bool.and_false]
      | some e =>
        rw [hx] at hc
        simp only [decide_eq_true_eq] at hc
        have hdge : dge (some e) d = false := by
          simp only [dge, decide_eq_false_iff_not]
          omega
        show (dle g.eff d && dge (some e) d) = false
        rw [hdge, Bool.and_false]
  · intro d hd
    have hall : monthStarts.all (fun d => decide (d ≤ clipDate)) = true := by decide
    exact of_decide_eq_true (List.all_eq_true.mp hall d hd)
  · intro y h1 h2
    interval_cases y <;> decide

/-- Witness for C3: the capped grant is inactive on 2026-01-01, a month
bucket is before the clip date, the 2025 bucket end equals the clip
date. -/
theorem C3_witness :
    activeOnDate (capGrant grantT) (toDay 2026 1 1) = false
      ∧ toDay 2020 1 1 ≤ clipDate
      ∧ yearEnd 2025 ≤ clipDate :=
  ⟨C3_clipping_only_v2.1 grantT rfl (toDay 2026 1 1) (by decide),
   C3_clipping_only_v2.2.1 (toDay 2020 1 1) (by decide),
   C3_clipping_only_v2.2.2.1 2025 (by omega) (by omega)⟩

/-! ### Claim C4 -/

/-- C4 counterexample: two disjoint short windows inside 2022: the yearly
overlap path sums to 2 for the 2022 bucket while the event-index path
totals at most 1 on every date, so no representative date reproduces the
yearly sum. -/
theorem rs4_totalCum_le_one (d : Nat) : totalCum (cleanRecs rs4) d ≤ 1 := by
  rw [totalCum_eq_count _ (fun g hg => usable_eff_le_exp (mem_cleanRecs_usable hg))]
  have hclean : cleanRecs rs4 = [grant1, grant2] := by decide
  rw [hclean]
  have hcnt : ([grant1, grant2].countP fun g => decide (effD g ≤ d) && decide (d ≤ expD g)) ≤ 1 := by
    rw [List.countP_cons, List.countP_cons, List.countP_nil]
    by_cases h1 : (decide (effD grant1 ≤ d) && decide (d ≤ expD grant1)) = true <;>
      by_cases h2 : (decide (effD grant2 ≤ d) && decide (d ≤ expD grant2)) = true
    · exfalso
      simp only [Bool.and_eq_true, decide_eq_true_eq] at h1 h2
      have hlt : expD grant1 < effD grant2 := by decide
      omega
    · rw [if_pos h1, if_neg h2]
    · rw [if_neg h1, if_pos h2]
    · rw [if_neg h1, if_neg h2]
      omega
  exact_mod_cast hcnt

/-- C4 counterexample (continued doc): on `rs4` the yearly path sums to 2
for the 2022 bucket, while the event-index path totals 1 at the start and
end of 2022 and stays ≤ 1 on every emitted date, so no representative date
reproduces the yearly sum. -/
theorem C4_counterexample :
    yearlyTotal rs4 2022 = 2
      ∧ totalCum (cleanRecs rs4) (yearStart 2022) = 1
      ∧ totalCum (cleanRecs rs4) (yearEnd 2022) = 1
      ∧ (outDates (cleanRecs rs4)).all
          (fun d => decide (totalCum (cleanRecs rs4) d ≤ 1)) = true := by
  refine ⟨by decide, ?_, ?_, ?_⟩
  · have h := rs4_totalCum_le_one (yearStart 2022)
    have h2 : totalCum (cleanRecs rs4) (yearStart 2022)
        = ((cleanRecs rs4).countP fun g => decide (effD g ≤ yearStart 2022)
            && decide (yearStart 2022 ≤ expD g) : Nat) :=
      totalCum_eq_count _ (fun g hg => usable_eff_le_exp (mem_cleanRecs_usable hg)) _
    rw [h2]
    have : ((cleanRecs rs4).countP fun g => decide (effD g ≤ yearStart 2022)
        && decide (yearStart 2022 ≤ expD g)) = 1 := by decide
    rw [this]
    rfl
  · have h2 : totalCum (cleanRecs rs4) (yearEnd 2022)
        = ((cleanRecs rs4).countP fun g => decide (effD g ≤ yearEnd 2022)
            && decide (yearEnd 2022 ≤ expD g) : Nat) :=
      totalCum_eq_count _ (fun g hg => usable_eff_le_exp (mem_cleanRecs_usable hg)) _
    rw [h2]
    have : ((cleanRecs rs4).countP fun g => decide (effD g ≤ yearEnd 2022)
        && decide (yearEnd 2022 ≤ expD g)) = 1 := by decide
    rw [this]
    rfl
  · exact List.all_eq_true.mpr fun d _ => decide_eq_true (rs4_totalCum_le_one d)

/-- C4 amended claim: a one-sided conservation law holds: for inputs of
clean records, at every representative date inside a year bucket the sum
over groups from the event-index path is at most the sum over groups from
the yearly overlap path; the two need not be equal. -/
theorem C4_conservation_bound :
    ∀ rs : List Grant, (∀ g ∈ rs, usable g = true) →
      ∀ y d : Nat, yearStart y ≤ d → d ≤ yearEnd y →
        totalCum (cleanRecs rs) d ≤ (yearlyTotal rs y : Int) := by
  intro rs hrs y d h1 h2
  rw [cleanRecs_eq_self hrs,
    totalCum_eq_count rs (fun g hg => usable_eff_le_exp (hrs g hg)) d]
  have hyt : yearlyTotal rs y = rs.countP fun g => activeInYear g y := by
    unfold yearlyTotal
    have hmap : ∀ s ∈ uniqueStates rs,
        numActive (grantsOfState rs s) y
          = rs.countP fun g => (g.stateCode == s) && activeInYear g y := by
      intro s hs
      rcases mem_uniqueStates_exists hs with ⟨g0, hg0, hcode⟩
      obtain ⟨_, _, _, hsome, _⟩ := usable_fields (hrs g0 hg0)
      rcases Option.isSome_iff_exists.mp hsome with ⟨v, hv⟩
      have hsv : s = some v := by rw [← hcode, hv]
      subst hsv
      unfold numActive
      rw [grantsOfState_some, List.countP_filter]
      apply List.countP_congr
      intro g _
      cases hgc : (g.stateCode == some v) <;> cases hact : activeInYear g y <;>
        simp [hgc, hact]
    have hk := sum_countP_key rs Grant.stateCode (uniqueStates rs) (nodup_uniqueStates rs)
      (fun g => activeInYear g y)
    rw [List.map_congr_left hmap, hk]
    apply List.countP_congr
    intro g hg
    simp [stateCode_mem_uniqueStates hg]
  rw [hyt]
  have hmono : (rs.countP fun g => decide (effD g ≤ d) && decide (d ≤ expD g))
      ≤ rs.countP fun g => activeInYear g y := by
    apply List.countP_mono_left
    intro g hg hp
    obtain ⟨heff, hexp, _, _, _⟩ := usable_fields (hrs g hg)
    simp only [Bool.and_eq_true, decide_eq_true_eq] at hp
    unfold activeInYear
    rw [heff, hexp]
    simp only [dle, dge, Bool.and_eq_true, decide_eq_true_eq]
    omega
  exact_mod_cast hmono

/-- Witness for C4: the bound at the concrete two-grant input, year 2022,
representative date Jan 1. -/
theorem C4_witness :
    totalCum (cleanRecs rs4) (yearStart 2022) ≤ (yearlyTotal rs4 2022 : Int) :=
  C4_conservation_bound rs4 (by decide) 2022 (yearStart 2022) (le_refl _) (by decide)

end NSF
